import Mathlib

/-!
Verification of the combat router of TheNinjaRPG (src/unnamed/part_003).

The file shallowly embeds the three entry points of the combat router —
getBattle, performAction and initiateBattle — as executable Lean functions.
The router's helper functions (alignBattle, performBattleAction,
performAIaction, availableUserActions, calcBattleResult, calcIsStunned,
maskBattle, updateBattle) live in libs/combat/* which is not part of the
sources; they are modelled from the spec as an abstract environment
(CombatEnv) of pure functions, and the durable store's version-guarded
write (updateBattle) is modelled from the spec as a compare-and-swap on
the stored version.  The router's own control flow — the turn gate, the
user/AI action branches, the stun forced-move branch, the AI chaining
guard, the history accumulation and the commit/retry logic — is
translated line by line from the source.
-/

set_option maxRecDepth 8000
set_option maxHeartbeats 1600000

/-- Outcome of calcBattleResult: counts of remaining combatants on each side
(reward fields are irrelevant to the claims). -/
structure BattleResult where
  friendsLeft : Nat
  targetsLeft : Nat
deriving DecidableEq, Repr

/-- The battle record fields the router reads and writes (id, round,
activeUserId, version); all remaining combat content (usersState, effects,
grid) is opaque to the router's control flow and collapsed into payload. -/
structure Battle where
  id : String
  round : Nat
  activeUserId : String
  version : Nat
  payload : Nat
deriving DecidableEq, Repr

/-- The fields of a combatant snapshot that the performAction control flow
reads from the aligned actor. -/
structure Actor where
  userId : String
  controllerId : String
  username : String
  isAi : Bool
  longitude : Int
  latitude : Int
deriving DecidableEq, Repr

/-- Modelled from the spec: alignBattle mutates the battle in place to the
correct activeUserId and round and reports the active actor, the action
round, whether that actor is stunned, and whether the round progressed.
The mutated battle is returned explicitly here. -/
structure AlignOut where
  battle : Battle
  actor : Actor
  actionRound : Nat
  isStunned : Bool
  progressRound : Bool
deriving DecidableEq, Repr

/-- An entry of availableUserActions: the id used to look the action up and
the battleDescription pushed into the history. -/
structure ActionObj where
  id : String
  battleDescription : String
deriving DecidableEq, Repr

/-- The performActionSchema input: battleId plus the optional action id and
target coordinates. -/
structure ActionInput where
  battleId : String
  actionId : Option String
  longitude : Option Int
  latitude : Option Int
deriving DecidableEq, Repr

/-- Modelled from the spec: successful performBattleAction returns the
mutated battle and the list of applied effects (kept opaque as strings). -/
structure PerformOut where
  newBattle : Battle
  actionEffects : List String
deriving DecidableEq, Repr

/-- Modelled from the spec: successful performAIaction returns the next
battle, applied effects, and the AI's description lines. -/
structure AIOut where
  nextBattle : Battle
  nextActionEffects : List String
  aiDescriptions : List String
deriving DecidableEq, Repr

/-- Modelled from the spec: the combat helpers imported from libs/combat/*
(absent from the sources), the battle fetch, and the stored battle version
seen by the k-th version-guarded updateBattle call.  Every helper is a pure
function; a performBattleAction / performAIaction failure is the thrown
error's message. -/
structure CombatEnv where
  fetchBattle : String → Option Battle
  alignBattle : Battle → Option String → AlignOut
  availableUserActions : Battle → String → List ActionObj
  performBattleAction : Battle → ActionObj → String → Int → Int → Except String PerformOut
  performAIaction : Battle → Except String AIOut
  calcBattleResult : Battle → String → Option BattleResult
  calcIsStunned : Battle → String → Bool
  maskBattle : Battle → String → Battle
  storeVersion : Nat → Nat

/-- One history entry pushed by the inner loop (part_003 lines 224-232). -/
structure HistoryEntry where
  battleRound : Nat
  appliedEffects : List String
  description : String
  battleVersion : Nat
deriving DecidableEq, Repr

/-- Record of one updateBattle call: version written, expected (read)
version passed as the guard, stored version at that moment, the nActions
counter at the call (for getBattle: 1 when the round progressed else 0),
and whether the compare-and-swap succeeded. -/
structure CommitRec where
  written : Nat
  expected : Nat
  stored : Nat
  nActions : Nat
  ok : Bool
deriving DecidableEq, Repr

/-- Record of one performBattleAction invocation (action id, the
coordinates handed over from the input, and the actorId it is applied
for). -/
structure ActionCall where
  actionId : String
  longitude : Int
  latitude : Int
  actorId : String
deriving DecidableEq, Repr

/-- Observable I/O of one request: number of battle fetches, the sequence
of updateBattle calls, and the performBattleAction invocations. -/
structure RunLog where
  fetches : Nat
  commits : List CommitRec
  actionCalls : List ActionCall
deriving DecidableEq, Repr

/-- The value performAction resolves with.  missing is the bare
updateClient:true reply when no battle row exists; note is a reply of shape
notification-only; errNote is updateClient:false plus a notification;
committed is the successful reply carrying the masked battle, the result
and the persisted history; thrown is an error propagated to the caller;
fuelOut marks a run that exceeded the modelling fuel (non-termination). -/
inductive PerformResult where
  | missing
  | note (msg : String)
  | errNote (msg : String)
  | committed (battle : Battle) (result : Option BattleResult) (history : List HistoryEntry)
  | thrown (msg : String)
  | fuelOut
deriving DecidableEq, Repr

/-- The mutable variables of performAction's loops (part_003 lines
127-148): the fetched battle object, the newBattle variable, whether the
two still alias the same object (true until the first action assigns
newBattle a fresh value), the request input (mutated by the stun branch),
the actionPerformed flag, the nActions counter, the accumulated history,
the attempts counter, and the I/O log. -/
structure InnerState where
  battle : Battle
  newBattle : Battle
  aliased : Bool
  input : ActionInput
  actionPerformed : Bool
  nActions : Nat
  history : List HistoryEntry
  attempts : Nat
  log : RunLog

/-- In-place mutation of the battle variable: while newBattle still aliases
it, the update is visible through both. -/
def setBattleVar (s : InnerState) (b : Battle) : InnerState :=
  if s.aliased then { s with battle := b, newBattle := b } else { s with battle := b }

/-- In-place mutation of the newBattle variable: while it aliases battle,
the update is visible through both. -/
def setNewBattleVar (s : InnerState) (b : Battle) : InnerState :=
  if s.aliased then { s with battle := b, newBattle := b } else { s with newBattle := b }

/-- JavaScript truthiness of the optional actionId (undefined and the empty
string are falsy). -/
def truthyStr : Option String → Bool
  | some s => s != ""
  | none => false

/-- One step of the inner loop either returns a reply or continues with an
updated state. -/
inductive StepOut where
  | ret (r : PerformResult) (log : RunLog)
  | cont (s : InnerState)

/-- Lines 266-297 of part_003: increment newBattle.version by nActions,
call updateBattle guarded by battle.version, and on success return the
masked battle, the result and the saved history; on failure rethrow once
attempts exceeds 1, else increment attempts and run the inner loop again
(on the same in-memory state — the code never reaches the outer refetch).
The fire-and-forget pusher broadcast of line 269 has no effect on battle
state and is not modelled. -/
def commitPhase (env : CombatEnv) (suid : String) (s : InnerState)
    (result : Option BattleResult) : StepOut :=
  let written := s.newBattle.version + s.nActions
  let s := setNewBattleVar s { s.newBattle with version := written }
  let expected := s.battle.version
  let stored := env.storeVersion s.log.commits.length
  let ok := stored == expected
  let crec : CommitRec := ⟨written, expected, stored, s.nActions, ok⟩
  let s := { s with log := { s.log with commits := s.log.commits ++ [crec] } }
  if ok then
    .ret (.committed (env.maskBattle s.newBattle suid) result s.history) s.log
  else if s.attempts > 1 then
    .ret (.thrown "Battle version conflict") s.log
  else
    .cont { s with attempts := s.attempts + 1 }

/-- Lines 210-264 of part_003: join the descriptions, bail out when an
action produced no description, realign the battle, append the turn-passing
suffix, push the history entry, evaluate the battle result, take the stun
forced-move branch, the AI chaining branch, or the unchanged-state bailout,
and otherwise fall through to the commit. -/
def afterAction (env : CombatEnv) (suid : String) (originalRound : Nat)
    (originalActiveUserId : String) (s : InnerState) (actionRound : Nat)
    (actor : Actor) (actionEffects : List String)
    (battleDescriptions : List String) : StepOut :=
  let description := String.intercalate ". " battleDescriptions
  if description == "" && s.actionPerformed && s.history.length == 0 then
    .ret (.errNote "No battle description") s.log
  else
    let a2 := env.alignBattle s.newBattle none
    let s := setNewBattleVar s a2.battle
    let newActor := a2.actor
    let description :=
      if s.actionPerformed && a2.progressRound then
        description ++ (if description.endsWith "." then "" else ". ") ++
          " It is now " ++ newActor.username ++ "\x27s turn."
      else description
    let s :=
      if description != "" then
        { s with
          history := s.history ++
            [⟨actionRound, actionEffects, description, s.newBattle.version + s.nActions⟩],
          nActions := s.nActions + 1 }
      else s
    let result := env.calcBattleResult s.newBattle suid
    if env.calcIsStunned s.newBattle newActor.userId then
      .cont { s with
        input := { s.input with actionId := some "move", longitude := some 1, latitude := some 1 } }
    else if newActor.isAi && (newActor.controllerId == newActor.userId) &&
        s.nActions < 5 && result.isNone &&
        (newActor.userId != actor.userId || description != "") then
      .cont s
    else if !s.actionPerformed && s.newBattle.round == originalRound &&
        s.newBattle.activeUserId == originalActiveUserId then
      .ret (.note "Battle state was not changed") s.log
    else
      commitPhase env suid s result

/-- Lines 151-208 of part_003: realign the battle to the active actor, gate
on whose turn it is, then run the user action branch or the AI branch. -/
def innerStep (env : CombatEnv) (suid : String) (originalRound : Nat)
    (originalActiveUserId : String) (s0 : InnerState) : StepOut :=
  let a1 := env.alignBattle s0.battle (some suid)
  let s1 := setBattleVar s0 a1.battle
  let actor := a1.actor
  let isUserTurn := actor.controllerId == suid
  let isAITurn := actor.isAi && (actor.controllerId == actor.userId)
  if !a1.isStunned && !isUserTurn && !isAITurn then
    .ret (.note ("Not your turn. Wait for " ++ actor.username)) s1.log
  else if !isAITurn && (isUserTurn || a1.isStunned) &&
      s1.input.longitude.isSome && s1.input.latitude.isSome &&
      truthyStr s1.input.actionId then
    let aid := s1.input.actionId.getD ""
    let lo := s1.input.longitude.getD 0
    let la := s1.input.latitude.getD 0
    let actions := env.availableUserActions s1.battle suid
    match actions.find? (fun a => a.id == aid) with
    | none => .ret (.thrown "Invalid action") s1.log
    | some action =>
      let s2 := { s1 with
        log := { s1.log with
          actionCalls := s1.log.actionCalls ++ [(⟨aid, lo, la, actor.userId⟩ : ActionCall)] } }
      match env.performBattleAction s2.battle action actor.userId lo la with
      | .error msg => .ret (.errNote msg) s2.log
      | .ok out =>
        let s3 := { s2 with newBattle := out.newBattle, aliased := false, actionPerformed := true }
        afterAction env suid originalRound originalActiveUserId s3 a1.actionRound actor
          out.actionEffects [action.battleDescription]
  else if isAITurn then
    match env.performAIaction s1.newBattle with
    | .error msg => .ret (.errNote msg) s1.log
    | .ok out =>
      let s3 := { s1 with newBattle := out.nextBattle, aliased := false, actionPerformed := true }
      afterAction env suid originalRound originalActiveUserId s3 a1.actionRound actor
        out.nextActionEffects out.aiDescriptions
  else
    afterAction env suid originalRound originalActiveUserId s1 a1.actionRound actor [] []

/-- The inner while(true) loop of performAction, indexed by fuel (the
source loop can run forever, e.g. on a cycle of stunned actors). -/
def innerLoop (env : CombatEnv) (suid : String) (originalRound : Nat)
    (originalActiveUserId : String) : Nat → InnerState → PerformResult × RunLog
  | 0, s => (.fuelOut, s.log)
  | fuel + 1, s =>
    match innerStep env suid originalRound originalActiveUserId s with
    | .ret r log => (r, log)
    | .cont s' => innerLoop env suid originalRound originalActiveUserId fuel s'

/-- Lines 105-299 of part_003: performAction fetches the battle once and
runs the inner resolution loop; the outer while(true) is unreachable past
its first iteration because the inner loop only ever returns or throws. -/
def performAction (env : CombatEnv) (suid : String) (input : ActionInput)
    (fuel : Nat) : PerformResult × RunLog :=
  match env.fetchBattle input.battleId with
  | none => (.missing, ⟨1, [], []⟩)
  | some b =>
    innerLoop env suid b.round b.activeUserId fuel
      { battle := b, newBattle := b, aliased := true, input := input,
        actionPerformed := false, nActions := 0, history := [], attempts := 0,
        log := ⟨1, [], []⟩ }

/-- Length of the history persisted by a successful performAction reply. -/
def histLen : PerformResult → Nat
  | .committed _ _ h => h.length
  | _ => 0

/-- The value getBattle resolves with. -/
inductive GetBattleResult where
  | noBattle
  | found (battle : Battle) (result : Option BattleResult)
  | thrown (msg : String)
  | fuelOut
deriving DecidableEq, Repr

/-- Observable I/O of one getBattle request. -/
structure GetLog where
  fetches : Nat
  commits : List CommitRec
deriving DecidableEq, Repr

/-- Lines 45-87 of part_003: the read-modify-write loop of getBattle.  Each
attempt refetches the battle, aligns it, bumps the version by one when the
round progressed, computes the result, masks the battle, and writes it back
(guarded by the fetched version) when the battle is over or the round
progressed; a failed write is retried until attempts exceeds 2. -/
def getBattleLoop (env : CombatEnv) (uid : String) (battleId : String) :
    Nat → Nat → GetLog → GetBattleResult × GetLog
  | 0, _, log => (.fuelOut, log)
  | fuel + 1, attempts, log =>
    let attempts := attempts + 1
    match env.fetchBattle battleId with
    | none => (.noBattle, { log with fetches := log.fetches + 1 })
    | some b =>
      let log := { log with fetches := log.fetches + 1 }
      let fetchedVersion := b.version
      let a := env.alignBattle b (some uid)
      let b2 := if a.progressRound then
          { a.battle with version := a.battle.version + 1 } else a.battle
      let result := env.calcBattleResult b2 uid
      let masked := env.maskBattle b2 uid
      let battleOver := match result with
        | some r => r.friendsLeft + r.targetsLeft == 0
        | none => false
      if battleOver || a.progressRound then
        let stored := env.storeVersion log.commits.length
        let ok := stored == fetchedVersion
        let crec : CommitRec :=
          ⟨b2.version, fetchedVersion, stored, if a.progressRound then 1 else 0, ok⟩
        let log := { log with commits := log.commits ++ [crec] }
        if ok then (.found masked result, log)
        else if attempts > 2 then (.thrown "Battle version conflict", log)
        else getBattleLoop env uid battleId fuel attempts log
      else (.found masked result, log)

/-- Lines 37-88 of part_003: getBattle returns null for a missing id, else
runs the retry loop starting from zero attempts. -/
def getBattle (env : CombatEnv) (uid : String) (battleId : Option String)
    (fuel : Nat) : GetBattleResult × GetLog :=
  match battleId with
  | none => (.noBattle, (⟨0, []⟩ : GetLog))
  | some bid => getBattleLoop env uid bid fuel 0 ⟨0, []⟩

/-- The battleType enumeration values the router branches on. -/
inductive BattleType where
  | ARENA
  | SPARRING
  | COMBAT
  | OTHER
deriving DecidableEq, Repr

/-- The fields of a fetched userData row that initiateBattle reads.  Time
is modelled as an integer clock; villageSector is the sector of the user's
own village (none when the user has no village).  Stats, items, jutsus and
regeneration data are not read by any claim and are omitted. -/
structure UserRow where
  userId : String
  status : String
  sector : Nat
  longitude : Int
  latitude : Int
  immunityUntil : Int
  villageSector : Option Nat
  isAi : Bool
deriving DecidableEq, Repr

/-- The parts of a usersState combatant snapshot the claims reference:
identity, controller (set to the user itself), the isOriginal flag, and the
combat-map position written over the travel coordinates. -/
structure CombatantState where
  userId : String
  controllerId : String
  isOriginal : Bool
  longitude : Int
  latitude : Int
deriving DecidableEq, Repr

/-- The Battle row inserted by initiateBattle (fields referenced by the
claims; effects, timestamps and the random ground assets are omitted). -/
structure BattleRow where
  id : String
  battleType : BattleType
  background : String
  usersState : List CombatantState
  rewardScaling : ℚ
  activeUserId : String
deriving DecidableEq, Repr

/-- The battleHistory row inserted for non-arena battles. -/
structure HistoryRow where
  battleId : String
  attackedId : String
  defenderId : String
deriving DecidableEq, Repr

/-- Effect of the final userData UPDATE on one matched row: the CASE
expressions set status to BATTLE and attach the battleId only for non-AI
rows. -/
structure UserUpdateRow where
  userId : String
  newStatus : String
  battleIdSet : Bool
deriving DecidableEq, Repr

/-- A row written inside the initiateBattle transaction.  Per the database
client's semantics a transaction callback that RETURNS (rather than
throws) commits, so every write issued before a structured-failure return
is persisted. -/
inductive DbWrite where
  | insertBattle (row : BattleRow)
  | insertHistory (row : HistoryRow)
  | updateUsers (rows : List UserUpdateRow)
deriving DecidableEq, Repr

/-- The info argument of initiateBattle. -/
structure InitiateInfo where
  longitude : Option Int
  latitude : Option Int
  sector : Nat
  userId : String
  targetId : String
deriving DecidableEq, Repr

/-- The BaseServerResponse shape initiateBattle resolves with. -/
structure InitiateResult where
  success : Bool
  message : String
deriving DecidableEq, Repr

/-- JavaScript truthiness of the optional coordinate used when the final
UPDATE spreads its location conditions: undefined and 0 are falsy. -/
def truthyOpt : Option Int → Bool
  | some v => v != 0
  | none => false

/-- Line 419 of part_003: users.sort puts the attacker first (the
comparator returns -1 exactly on rows whose userId is the attacker's; the
query returns at most two rows since userId is unique). -/
def sortAttackerFirst (uid : String) : List UserRow → List UserRow
  | [] => []
  | [a] => [a]
  | [a, b] => if a.userId = uid then [a, b] else [b, a]
  | l => l.filter (fun r => r.userId = uid) ++ l.filter (fun r => r.userId ≠ uid)

/-- The WHERE clause of the final userData UPDATE (lines 670-684): the row
is one of the two parties, still AWAKE, and for COMBAT battles also at the
requested sector and (when truthy) the requested coordinates. -/
def updateWhere (info : InitiateInfo) (battleType : BattleType) (r : UserRow) : Bool :=
  (r.userId == info.userId || r.userId == info.targetId) && r.status == "AWAKE" &&
    (battleType != .COMBAT ||
      (r.sector == info.sector &&
        (!truthyOpt info.longitude || r.longitude == info.longitude.getD 0) &&
        (!truthyOpt info.latitude || r.latitude == info.latitude.getD 0)))

/-- Lines 478-582 of part_003 restricted to the claimed fields: the
usersState snapshot keeps the (overwritten) position and sets
controllerId to the user's own id and isOriginal to true. -/
def toCombatant (r : UserRow) : CombatantState :=
  { userId := r.userId, controllerId := r.userId, isOriginal := true,
    longitude := r.longitude, latitude := r.latitude }

/-- Lines 619-623 of part_003: the defender opens the battle exactly when
their current sector equals their own village's sector. -/
def defenderGoesFirst (u1 : UserRow) : Bool :=
  match u1.villageSector with
  | some vs => u1.sector == vs
  | none => false

/-- Lines 389-695 of part_003: initiateBattle as a pure function of the
request, the two fetched rows, the count of prior battles between the pair
in the trailing 60 minutes, the current clock, the userData rows as they
stand when the final UPDATE runs, and the generated battle id.  It returns
the structured response together with the list of rows the transaction
leaves persisted (the transaction only rolls back on a thrown exception,
never on a returned failure). -/
def initiateBattle (info : InitiateInfo) (battleType : BattleType)
    (background : String) (fetched : List UserRow) (previousBattles : Nat)
    (now : Int) (currentRows : List UserRow) (battleId : String) :
    InitiateResult × List DbWrite :=
  let users := sortAttackerFirst info.userId fetched
  match users.get? 0, users.get? 1 with
  | none, _ => (⟨false, "Failed to set position of left-hand user"⟩, [])
  | some _, none => (⟨false, "Failed to set position of right-hand user"⟩, [])
  | some u0r, some u1r =>
    let u0 := { u0r with longitude := 4, latitude := 2 }
    let u1 := { u1r with longitude := 8, latitude := 2 }
    if u1.immunityUntil > now then
      (⟨false, "Target is immune from combat until " ++ toString u1.immunityUntil⟩, [])
    else if u0.status ≠ "AWAKE" then
      (⟨false, "You are not awake"⟩, [])
    else if u1.status ≠ "AWAKE" then
      (⟨false, "Target is not awake"⟩, [])
    else
      let rewardScaling : ℚ :=
        if battleType ≠ .ARENA ∧ previousBattles > 0 then
          1 / ((previousBattles : ℚ) + 1)
        else 1
      let usersState := [toCombatant u0, toCombatant u1]
      let activeUserId := if defenderGoesFirst u1 then u1.userId else u0.userId
      let battleRow : BattleRow :=
        ⟨battleId, battleType, background, usersState, rewardScaling, activeUserId⟩
      let writes := [DbWrite.insertBattle battleRow]
      let writes := if battleType ≠ .ARENA then
          writes ++ [DbWrite.insertHistory ⟨battleId, u0.userId, u1.userId⟩]
        else writes
      let affected := currentRows.filter (updateWhere info battleType)
      let updateRows := affected.map (fun r =>
        (⟨r.userId, if r.isAi then "AWAKE" else "BATTLE", !r.isAi⟩ : UserUpdateRow))
      let writes := writes ++ [DbWrite.updateUsers updateRows]
      if affected.length ≠ 2 then
        (⟨false, "Attack failed, did the target move?"⟩, writes)
      else
        (⟨true, battleId⟩, writes)

/-- First insertBattle write of a run, when any. -/
def battleInsert? : List DbWrite → Option BattleRow
  | [] => none
  | .insertBattle row :: _ => some row
  | _ :: rest => battleInsert? rest

/-- First updateUsers write of a run, when any. -/
def userUpdates? : List DbWrite → Option (List UserUpdateRow)
  | [] => none
  | .updateUsers rows :: _ => some rows
  | _ :: rest => userUpdates? rest

/-- A human combatant P controlling itself, used by the concrete runs. -/
def actorP : Actor := ⟨"P", "P", "Pat", false, 4, 2⟩

/-- A stunned human combatant S, placed at combat tile (4,2). -/
def actorS : Actor := ⟨"S", "S", "Sora", false, 4, 2⟩

/-- The combatant Q acting after S in the stun scenario. -/
def actorQ : Actor := ⟨"Q", "Q", "Quin", false, 8, 2⟩

/-- A human combatant R controlled by someone other than the requester. -/
def actorR : Actor := ⟨"R", "R", "Rex", false, 0, 0⟩

/-- Spec-modelled environment for the round-progression-only commit: the
requester is the active actor, alignment progresses round 1 to round 2
without touching the version (the caller owns version bumps, as getBattle
line 62 shows), nobody is stunned, no result, and the store still holds the
fetched version 7. -/
def cEnv1 : CombatEnv where
  fetchBattle := fun bid => if bid == "b1" then some ⟨"b1", 1, "S", 7, 0⟩ else none
  alignBattle := fun b _ =>
    { battle := { b with round := 2, activeUserId := "P" }, actor := actorP,
      actionRound := b.round, isStunned := false, progressRound := b.round == 1 }
  availableUserActions := fun _ _ => []
  performBattleAction := fun _ _ _ _ _ => .error "unused"
  performAIaction := fun _ => .error "unused"
  calcBattleResult := fun _ _ => none
  calcIsStunned := fun _ _ => false
  maskBattle := fun b _ => b
  storeVersion := fun _ => 7

/-- Spec-modelled environment for the stun forced-skip: while the battle
payload is 0 the active actor is the stunned S; after the move action
(payload 1) the turn belongs to Q; the store holds the fetched version. -/
def cEnv2 : CombatEnv where
  fetchBattle := fun bid => if bid == "b2" then some ⟨"b2", 1, "S", 5, 0⟩ else none
  alignBattle := fun b _ =>
    if b.payload == 0 then
      { battle := { b with activeUserId := "S" }, actor := actorS,
        actionRound := b.round, isStunned := true, progressRound := false }
    else
      { battle := { b with activeUserId := "Q" }, actor := actorQ,
        actionRound := b.round, isStunned := false, progressRound := false }
  availableUserActions := fun _ _ => [⟨"move", "Stunned move"⟩]
  performBattleAction := fun b _ _ _ _ => .ok ⟨{ b with payload := 1 }, []⟩
  performAIaction := fun _ => .error "unused"
  calcBattleResult := fun _ _ => none
  calcIsStunned := fun b u => u == "S" && b.payload == 0
  maskBattle := fun b _ => b
  storeVersion := fun _ => 5

/-- Environment where the aligned actor is R (not stunned, human, not the
requester's), exercising the turn gate. -/
def cEnv3 : CombatEnv where
  fetchBattle := fun bid => if bid == "b3" then some ⟨"b3", 1, "R", 3, 0⟩ else none
  alignBattle := fun b _ =>
    { battle := b, actor := actorR, actionRound := b.round,
      isStunned := false, progressRound := false }
  availableUserActions := fun _ _ => []
  performBattleAction := fun _ _ _ _ _ => .error "unused"
  performAIaction := fun _ => .error "unused"
  calcBattleResult := fun _ _ => none
  calcIsStunned := fun _ _ => false
  maskBattle := fun b _ => b
  storeVersion := fun _ => 3

/-- Environment where the requester acts on their own turn, the attack
succeeds, the round progresses, and the store never matches the expected
version (every compare-and-swap fails). -/
def cEnv5 : CombatEnv where
  fetchBattle := fun bid => if bid == "b5" then some ⟨"b5", 1, "P", 7, 0⟩ else none
  alignBattle := fun b _ =>
    { battle := { b with activeUserId := "P" }, actor := actorP,
      actionRound := b.round, isStunned := false, progressRound := b.payload == 1 }
  availableUserActions := fun _ _ => [⟨"atk", "P strikes"⟩]
  performBattleAction := fun b _ _ _ _ => .ok ⟨{ b with payload := 1 }, []⟩
  performAIaction := fun _ => .error "unused"
  calcBattleResult := fun _ _ => none
  calcIsStunned := fun _ _ => false
  maskBattle := fun b _ => b
  storeVersion := fun _ => 999

/-- Same scenario as cEnv5 but with a store that matches the fetched
version, so the first commit succeeds. -/
def cEnv4 : CombatEnv where
  fetchBattle := fun bid => if bid == "b5" then some ⟨"b5", 1, "P", 7, 0⟩ else none
  alignBattle := fun b _ =>
    { battle := { b with activeUserId := "P" }, actor := actorP,
      actionRound := b.round, isStunned := false, progressRound := b.payload == 1 }
  availableUserActions := fun _ _ => [⟨"atk", "P strikes"⟩]
  performBattleAction := fun b _ _ _ _ => .ok ⟨{ b with payload := 1 }, []⟩
  performAIaction := fun _ => .error "unused"
  calcBattleResult := fun _ _ => none
  calcIsStunned := fun _ _ => false
  maskBattle := fun b _ => b
  storeVersion := fun _ => 7

/-- Environment where the requester's chosen action fails validation inside
performBattleAction with a descriptive message. -/
def cEnv6 : CombatEnv where
  fetchBattle := fun bid => if bid == "b6" then some ⟨"b6", 1, "P", 4, 0⟩ else none
  alignBattle := fun b _ =>
    { battle := b, actor := actorP, actionRound := b.round,
      isStunned := false, progressRound := false }
  availableUserActions := fun _ _ => [⟨"fireball", "P casts fireball"⟩]
  performBattleAction := fun _ _ _ _ _ => .error "Target out of range"
  performAIaction := fun _ => .error "unused"
  calcBattleResult := fun _ _ => none
  calcIsStunned := fun _ _ => false
  maskBattle := fun b _ => b
  storeVersion := fun _ => 4

/-- Environment whose alignment always progresses the round while the
store never matches, driving getBattle through all three attempts. -/
def cEnv7 : CombatEnv where
  fetchBattle := fun bid => if bid == "b7" then some ⟨"b7", 1, "P", 9, 0⟩ else none
  alignBattle := fun b _ =>
    { battle := { b with round := b.round + 1 }, actor := actorP,
      actionRound := b.round, isStunned := false, progressRound := true }
  availableUserActions := fun _ _ => []
  performBattleAction := fun _ _ _ _ _ => .error "unused"
  performAIaction := fun _ => .error "unused"
  calcBattleResult := fun _ _ => none
  calcIsStunned := fun _ _ => false
  maskBattle := fun b _ => b
  storeVersion := fun _ => 999


theorem setBattleVar_log (s : InnerState) (b : Battle) : (setBattleVar s b).log = s.log := by
  unfold setBattleVar; split <;> rfl

theorem setBattleVar_input (s : InnerState) (b : Battle) :
    (setBattleVar s b).input = s.input := by
  unfold setBattleVar; split <;> rfl

theorem setBattleVar_battle (s : InnerState) (b : Battle) :
    (setBattleVar s b).battle = b := by
  unfold setBattleVar; split <;> rfl

theorem setNewBattleVar_log (s : InnerState) (b : Battle) :
    (setNewBattleVar s b).log = s.log := by
  unfold setNewBattleVar; split <;> rfl

/-- C1 counterexample: in the cEnv1 run the battle is fetched at version 7,
the only committed mutation succeeds, and the version it writes is 7 as
well — not strictly greater than the version read at the start of the
operation.  This is the performAction path that reaches the commit with
nActions = 0 (round progressed during alignment but no action was
recorded), where line 276 of part_003 adds nothing to the version. -/
theorem C1_counterexample :
    (cEnv1.fetchBattle "b1").map Battle.version = some 7 ∧
    (performAction cEnv1 "P" ⟨"b1", none, none, none⟩ 4).2.commits =
      [⟨7, 7, 7, 0, true⟩] ∧ ¬ (7 : Nat) < 7 := by
  refine ⟨rfl, rfl, by omega⟩

/-- C2 counterexample: in the cEnv2 run the active actor S is stunned and
stands at combat tile (4,2), yet the auto-performed forced action is a
"move" whose target coordinates are the hardcoded (1,1) of part_003 lines
240-242 — not the actor's own current tile. -/
theorem C2_counterexample :
    (performAction cEnv2 "Q" ⟨"b2", none, none, none⟩ 5).2.actionCalls =
      [⟨"move", 1, 1, "S"⟩] ∧
    (cEnv2.alignBattle ⟨"b2", 1, "S", 5, 0⟩ (some "Q")).actor.longitude = 4 ∧
    (cEnv2.alignBattle ⟨"b2", 1, "S", 5, 0⟩ (some "Q")).actor.latitude = 2 ∧
    ¬ ((1 : Int) = 4 ∧ (1 : Int) = 2) := by
  refine ⟨rfl, rfl, rfl, by simp⟩

/-- C2 amended: with a stunned active actor and a request carrying no
client-supplied coordinates or action, the scheduler auto-performs a forced
"move" at the hardcoded placeholder coordinates (1,1) for the stunned
actor, which consumes the turn, produces exactly one history entry, passes
the turn to the next actor Q, and commits the battle (version bumped by the
single recorded action). -/
theorem C2_amended_stun_forced_skip :
    performAction cEnv2 "Q" ⟨"b2", none, none, none⟩ 5 =
      (.committed ⟨"b2", 1, "Q", 6, 1⟩ none [⟨1, [], "Stunned move", 5⟩],
        ⟨1, [⟨6, 5, 5, 1, true⟩], [⟨"move", 1, 1, "S"⟩]⟩) := by
  rfl

/-- C5 counterexample: in the cEnv5 run every version-guarded commit fails,
and performAction makes three commit attempts (the original and 2 retries)
before surfacing the error — yet the battle is fetched exactly once.  The
retry therefore does not re-fetch and re-run the attempt from scratch: the
code at part_003 lines 292-297 loops back only into the inner resolution
loop on the same in-memory state, never reaching the outer refetch. -/
theorem C5_counterexample :
    performAction cEnv5 "P" ⟨"b5", some "atk", some 5, some 2⟩ 6 =
      (.thrown "Battle version conflict",
        ⟨1,
          [⟨8, 7, 999, 1, false⟩, ⟨9, 7, 999, 2, false⟩, ⟨10, 7, 999, 3, false⟩],
          [⟨"atk", 5, 2, "P"⟩, ⟨"atk", 5, 2, "P"⟩, ⟨"atk", 5, 2, "P"⟩]⟩) ∧
    (1 : Nat) < 2 := by
  exact ⟨rfl, by omega⟩

/-- C3: turn exclusivity.  For every environment, requester and input, if
the battle is found and the aligned active actor is not stunned, is not an
AI controlling itself, and has a controllerId different from the
requester's id, then performAction replies with the "Not your turn"
notification naming the actor and performs no commit (and no action call):
the request ends at the turn gate of part_003 lines 156-160. -/
theorem C3_turn_exclusivity (env : CombatEnv) (suid : String) (input : ActionInput)
    (fuel : Nat) (b : Battle)
    (hf : env.fetchBattle input.battleId = some b)
    (hst : (env.alignBattle b (some suid)).isStunned = false)
    (hctl : (env.alignBattle b (some suid)).actor.controllerId ≠ suid)
    (hai : ¬((env.alignBattle b (some suid)).actor.isAi = true ∧
        (env.alignBattle b (some suid)).actor.controllerId =
          (env.alignBattle b (some suid)).actor.userId)) :
    performAction env suid input (fuel + 1) =
      (.note ("Not your turn. Wait for " ++ (env.alignBattle b (some suid)).actor.username),
        ⟨1, [], []⟩) := by
  have h2 : ((env.alignBattle b (some suid)).actor.controllerId == suid) = false := by
    exact beq_eq_false_iff_ne.mpr hctl
  have h3 : ((env.alignBattle b (some suid)).actor.isAi &&
      ((env.alignBattle b (some suid)).actor.controllerId ==
        (env.alignBattle b (some suid)).actor.userId)) = false := by
    cases hA : (env.alignBattle b (some suid)).actor.isAi with
    | false => rfl
    | true =>
      simp only [Bool.true_and]
      exact beq_eq_false_iff_ne.mpr (fun hc => hai ⟨hA, hc⟩)
  unfold performAction
  rw [hf]
  unfold innerLoop innerStep
  simp only [setBattleVar_log, setBattleVar_input, setBattleVar_battle, hst, h2, h3,
    Bool.not_false, Bool.and_self, if_true]

/-- C3 witness: the cEnv3 run, where the aligned actor R is human, not
stunned and controlled by R while the requester is P, is rejected at the
turn gate with the actor's name and an empty commit log. -/
theorem C3_witness :
    performAction cEnv3 "P" ⟨"b3", none, none, none⟩ 4 =
      (.note ("Not your turn. Wait for " ++
        (cEnv3.alignBattle ⟨"b3", 1, "R", 3, 0⟩ (some "P")).actor.username),
        ⟨1, [], []⟩) :=
  C3_turn_exclusivity cEnv3 "P" ⟨"b3", none, none, none⟩ 3 ⟨"b3", 1, "R", 3, 0⟩
    rfl rfl (by decide) (by decide)

/-- C6: validation failure inside performBattleAction.  For every
environment, whenever the request reaches the user-action branch (the turn
gate passes because it is the requester's turn or the actor is stunned, the
actor is not a self-controlled AI, and the input carries coordinates and a
truthy actionId resolving to an available action) and performBattleAction
rejects the action with a descriptive error, the handler replies with
updateClient set to false carrying exactly that message, and the run
commits nothing to the store (part_003 lines 176-194). -/
theorem C6_validation_failure (env : CombatEnv) (suid : String) (input : ActionInput)
    (fuel : Nat) (b : Battle) (aid : String) (lo la : Int) (act : ActionObj) (msg : String)
    (hf : env.fetchBattle input.battleId = some b)
    (hTurn : (env.alignBattle b (some suid)).actor.controllerId = suid ∨
        (env.alignBattle b (some suid)).isStunned = true)
    (hAI : ((env.alignBattle b (some suid)).actor.isAi &&
        ((env.alignBattle b (some suid)).actor.controllerId ==
          (env.alignBattle b (some suid)).actor.userId)) = false)
    (hid : input.actionId = some aid) (haid : aid ≠ "")
    (hlo : input.longitude = some lo) (hla : input.latitude = some la)
    (hfind : (env.availableUserActions (env.alignBattle b (some suid)).battle suid).find?
        (fun a => a.id == aid) = some act)
    (hperf : env.performBattleAction (env.alignBattle b (some suid)).battle act
        (env.alignBattle b (some suid)).actor.userId lo la = .error msg) :
    performAction env suid input (fuel + 1) =
      (.errNote msg,
        ⟨1, [], [⟨aid, lo, la, (env.alignBattle b (some suid)).actor.userId⟩]⟩) := by
  have hgate : (!(env.alignBattle b (some suid)).isStunned &&
      !((env.alignBattle b (some suid)).actor.controllerId == suid)) = false := by
    rcases hTurn with h | h
    · simp [h]
    · simp [h]
  have hturn2 : (((env.alignBattle b (some suid)).actor.controllerId == suid) ||
      (env.alignBattle b (some suid)).isStunned) = true := by
    rcases hTurn with h | h
    · simp [h]
    · simp [h]
  have haid2 : (aid != "") = true := bne_iff_ne.mpr haid
  unfold performAction
  rw [hf]
  unfold innerLoop innerStep
  simp only [setBattleVar_log, setBattleVar_input, setBattleVar_battle, hgate, hAI, hturn2,
    hid, hlo, hla, Bool.not_false, Bool.true_and, Bool.and_self, Option.isSome_some,
    truthyStr, Option.getD_some, Bool.false_eq_true, if_false, haid2,
    Bool.and_true, if_true, hfind, hperf, List.nil_append]

/-- C6 witness: in the cEnv6 run the requester's fireball is rejected by
performBattleAction with "Target out of range", and the reply carries that
message with updateClient false while the commit log stays empty. -/
theorem C6_witness :
    performAction cEnv6 "P" ⟨"b6", some "fireball", some 9, some 9⟩ 4 =
      (.errNote "Target out of range", ⟨1, [], [⟨"fireball", 9, 9, "P"⟩]⟩) :=
  C6_validation_failure cEnv6 "P" ⟨"b6", some "fireball", some 9, some 9⟩ 3
    ⟨"b6", 1, "P", 4, 0⟩ "fireball" 9 9 ⟨"fireball", "P casts fireball"⟩
    "Target out of range" rfl (Or.inl rfl) rfl rfl (by decide) rfl rfl rfl rfl

/-- The log carried by a step outcome. -/
def outLog : StepOut → RunLog
  | .ret _ log => log
  | .cont s => s.log

/-- The second log extends the first: its commit list only appends records
and the fetch count is unchanged (the inner loop never refetches). -/
def LogExt (l l2 : RunLog) : Prop :=
  l.commits <+: l2.commits ∧ l2.fetches = l.fetches

theorem logExt_refl (l : RunLog) : LogExt l l := ⟨List.prefix_rfl, rfl⟩

theorem logExt_trans {a b c : RunLog} (h1 : LogExt a b) (h2 : LogExt b c) : LogExt a c :=
  ⟨h1.1.trans h2.1, h2.2.trans h1.2⟩

theorem commitPhase_logExt (env : CombatEnv) (suid : String) (s : InnerState)
    (result : Option BattleResult) :
    LogExt s.log (outLog (commitPhase env suid s result)) := by
  unfold commitPhase
  dsimp only
  split
  · simp [outLog, LogExt, setNewBattleVar_log, List.prefix_append]
  · split
    · simp [outLog, LogExt, setNewBattleVar_log, List.prefix_append]
    · simp [outLog, LogExt, setNewBattleVar_log, List.prefix_append]

theorem afterAction_logExt (env : CombatEnv) (suid : String) (originalRound : Nat)
    (originalActiveUserId : String) (s : InnerState) (actionRound : Nat) (actor : Actor)
    (actionEffects : List String) (battleDescriptions : List String) :
    LogExt s.log (outLog (afterAction env suid originalRound originalActiveUserId s
      actionRound actor actionEffects battleDescriptions)) := by
  unfold afterAction
  dsimp only
  repeat' split
  all_goals first
    | exact logExt_refl _
    | (refine logExt_trans ?_ (commitPhase_logExt _ _ _ _)
       first
         | exact logExt_refl _
         | simp [LogExt, setNewBattleVar_log, List.prefix_rfl])
    | simp [outLog, LogExt, setNewBattleVar_log, List.prefix_rfl]

theorem innerStep_logExt (env : CombatEnv) (suid : String) (originalRound : Nat)
    (originalActiveUserId : String) (s : InnerState) :
    LogExt s.log (outLog (innerStep env suid originalRound originalActiveUserId s)) := by
  unfold innerStep
  dsimp only
  repeat' split
  all_goals first
    | exact logExt_refl _
    | (refine logExt_trans ?_ (afterAction_logExt _ _ _ _ _ _ _ _ _)
       first
         | exact logExt_refl _
         | simp [LogExt, setBattleVar_log, List.prefix_rfl])
    | simp [outLog, LogExt, setBattleVar_log, List.prefix_rfl]

@[simp] theorem setNewBattleVar_attempts (s : InnerState) (b : Battle) :
    (setNewBattleVar s b).attempts = s.attempts := by
  unfold setNewBattleVar; split <;> rfl

@[simp] theorem setNewBattleVar_nActions (s : InnerState) (b : Battle) :
    (setNewBattleVar s b).nActions = s.nActions := by
  unfold setNewBattleVar; split <;> rfl

@[simp] theorem setNewBattleVar_history (s : InnerState) (b : Battle) :
    (setNewBattleVar s b).history = s.history := by
  unfold setNewBattleVar; split <;> rfl

@[simp] theorem setNewBattleVar_actionPerformed (s : InnerState) (b : Battle) :
    (setNewBattleVar s b).actionPerformed = s.actionPerformed := by
  unfold setNewBattleVar; split <;> rfl

@[simp] theorem setNewBattleVar_aliased (s : InnerState) (b : Battle) :
    (setNewBattleVar s b).aliased = s.aliased := by
  unfold setNewBattleVar; split <;> rfl

@[simp] theorem setNewBattleVar_newBattle (s : InnerState) (b : Battle) :
    (setNewBattleVar s b).newBattle = b := by
  unfold setNewBattleVar; split <;> rfl

@[simp] theorem setBattleVar_attempts (s : InnerState) (b : Battle) :
    (setBattleVar s b).attempts = s.attempts := by
  unfold setBattleVar; split <;> rfl

@[simp] theorem setBattleVar_nActions (s : InnerState) (b : Battle) :
    (setBattleVar s b).nActions = s.nActions := by
  unfold setBattleVar; split <;> rfl

@[simp] theorem setBattleVar_history (s : InnerState) (b : Battle) :
    (setBattleVar s b).history = s.history := by
  unfold setBattleVar; split <;> rfl

@[simp] theorem setBattleVar_actionPerformed (s : InnerState) (b : Battle) :
    (setBattleVar s b).actionPerformed = s.actionPerformed := by
  unfold setBattleVar; split <;> rfl

@[simp] theorem setBattleVar_aliased (s : InnerState) (b : Battle) :
    (setBattleVar s b).aliased = s.aliased := by
  unfold setBattleVar; split <;> rfl

theorem commitPhase_attempts (env : CombatEnv) (suid : String) (s : InnerState)
    (result : Option BattleResult)
    (h1 : s.log.commits.length ≤ s.attempts) (h2 : s.attempts ≤ 2) :
    (∀ r log, commitPhase env suid s result = .ret r log → log.commits.length ≤ 3) ∧
    (∀ s', commitPhase env suid s result = .cont s' →
      s'.log.commits.length ≤ s'.attempts ∧ s'.attempts ≤ 2) := by
  unfold commitPhase
  dsimp only
  split
  · constructor
    · intro r log h
      simp only [StepOut.ret.injEq] at h
      simp only [← h.2, setNewBattleVar_log, List.length_append, List.length_singleton]
      omega
    · intro s' h
      exact absurd h (by simp)
  · split
    · constructor
      · intro r log h
        simp only [StepOut.ret.injEq] at h
        simp only [← h.2, setNewBattleVar_log, List.length_append, List.length_singleton]
        omega
      · intro s' h
        exact absurd h (by simp)
    · rename_i hok hng
      constructor
      · intro r log h
        exact absurd h (by simp)
      · intro s' h
        simp only [StepOut.cont.injEq] at h
        simp only [setNewBattleVar_attempts] at hng
        subst h
        simp only [setNewBattleVar_log, setNewBattleVar_attempts, List.length_append,
          List.length_singleton]
        omega

theorem afterAction_attempts (env : CombatEnv) (suid : String) (originalRound : Nat)
    (originalActiveUserId : String) (s : InnerState) (actionRound : Nat) (actor : Actor)
    (actionEffects : List String) (battleDescriptions : List String)
    (h1 : s.log.commits.length ≤ s.attempts) (h2 : s.attempts ≤ 2) :
    (∀ r log, afterAction env suid originalRound originalActiveUserId s actionRound actor
        actionEffects battleDescriptions = .ret r log → log.commits.length ≤ 3) ∧
    (∀ s', afterAction env suid originalRound originalActiveUserId s actionRound actor
        actionEffects battleDescriptions = .cont s' →
      s'.log.commits.length ≤ s'.attempts ∧ s'.attempts ≤ 2) := by
  unfold afterAction
  dsimp only
  repeat' split
  all_goals first
    | (apply commitPhase_attempts <;> simp_all [setNewBattleVar_log])
    | (constructor
       · intro r log h
         first
           | (exfalso; exact StepOut.noConfusion h)
           | (rw [StepOut.ret.injEq] at h
              obtain ⟨hr, hlog⟩ := h
              subst hlog
              try simp only [setNewBattleVar_log]
              omega)
       · intro s' h
         first
           | (exfalso; exact StepOut.noConfusion h)
           | (rw [StepOut.cont.injEq] at h
              subst h
              try dsimp only
              try simp only [setNewBattleVar_log, setNewBattleVar_attempts]
              constructor <;> omega))

theorem innerStep_attempts (env : CombatEnv) (suid : String) (originalRound : Nat)
    (originalActiveUserId : String) (s : InnerState)
    (h1 : s.log.commits.length ≤ s.attempts) (h2 : s.attempts ≤ 2) :
    (∀ r log, innerStep env suid originalRound originalActiveUserId s = .ret r log →
      log.commits.length ≤ 3) ∧
    (∀ s', innerStep env suid originalRound originalActiveUserId s = .cont s' →
      s'.log.commits.length ≤ s'.attempts ∧ s'.attempts ≤ 2) := by
  unfold innerStep
  dsimp only
  repeat' split
  all_goals first
    | (apply afterAction_attempts <;> simp_all [setBattleVar_log])
    | (constructor
       · intro r log h
         first
           | (exfalso; exact StepOut.noConfusion h)
           | (rw [StepOut.ret.injEq] at h
              obtain ⟨hr, hlog⟩ := h
              subst hlog
              try dsimp only
              try simp only [setBattleVar_log, setNewBattleVar_log]
              omega)
       · intro s' h
         first
           | (exfalso; exact StepOut.noConfusion h)
           | (rw [StepOut.cont.injEq] at h
              subst h
              try dsimp only
              try simp only [setBattleVar_log, setNewBattleVar_log, setBattleVar_attempts,
                setNewBattleVar_attempts]
              constructor <;> omega))

theorem innerLoop_logExt (env : CombatEnv) (suid : String) (originalRound : Nat)
    (originalActiveUserId : String) :
    ∀ fuel s, LogExt s.log (innerLoop env suid originalRound originalActiveUserId fuel s).2 := by
  intro fuel
  induction fuel with
  | zero => intro s; exact logExt_refl _
  | succ n ih =>
    intro s
    have h := innerStep_logExt env suid originalRound originalActiveUserId s
    unfold innerLoop
    cases hstep : innerStep env suid originalRound originalActiveUserId s with
    | ret r log => rw [hstep] at h; exact h
    | cont s' =>
      rw [hstep] at h
      exact logExt_trans h (ih s')

theorem innerLoop_commits_le (env : CombatEnv) (suid : String) (originalRound : Nat)
    (originalActiveUserId : String) :
    ∀ fuel s, s.log.commits.length ≤ s.attempts → s.attempts ≤ 2 →
      (innerLoop env suid originalRound originalActiveUserId fuel s).2.commits.length ≤ 3 := by
  intro fuel
  induction fuel with
  | zero => intro s h1 h2; simpa [innerLoop] using h1.trans (by omega)
  | succ n ih =>
    intro s h1 h2
    have h := innerStep_attempts env suid originalRound originalActiveUserId s h1 h2
    unfold innerLoop
    cases hstep : innerStep env suid originalRound originalActiveUserId s with
    | ret r log => exact h.1 r log hstep
    | cont s' => exact ih s' (h.2 s' hstep).1 (h.2 s' hstep).2

theorem performAction_fetches (env : CombatEnv) (suid : String) (input : ActionInput)
    (fuel : Nat) : (performAction env suid input fuel).2.fetches = 1 := by
  unfold performAction
  cases h : env.fetchBattle input.battleId with
  | none => rfl
  | some b =>
    exact (innerLoop_logExt env suid b.round b.activeUserId fuel _).2

theorem performAction_commits_le (env : CombatEnv) (suid : String) (input : ActionInput)
    (fuel : Nat) : (performAction env suid input fuel).2.commits.length ≤ 3 := by
  unfold performAction
  cases h : env.fetchBattle input.battleId with
  | none => simp
  | some b =>
    exact innerLoop_commits_le env suid b.round b.activeUserId fuel _ (by simp) (by simp)

theorem getBattleLoop_fetches (env : CombatEnv) (uid : String) (battleId : String) :
    ∀ fuel attempts log, attempts ≤ 2 →
      (getBattleLoop env uid battleId fuel attempts log).2.fetches ≤
        log.fetches + (3 - attempts) := by
  intro fuel
  induction fuel with
  | zero => intro attempts log h; simp [getBattleLoop]
  | succ n ih =>
    intro attempts log h
    unfold getBattleLoop
    dsimp only
    cases hf : env.fetchBattle battleId with
    | none => simp; omega
    | some b =>
      dsimp only
      repeat' split
      all_goals try (simp; omega)
      all_goals
        refine le_trans (ih (attempts + 1) _ (by omega)) ?_
      all_goals simp; omega

theorem getBattle_fetches (env : CombatEnv) (uid : String) (battleId : Option String)
    (fuel : Nat) : (getBattle env uid battleId fuel).2.fetches ≤ 3 := by
  unfold getBattle
  cases battleId with
  | none => simp
  | some bid =>
    have h := getBattleLoop_fetches env uid bid fuel 0 ⟨0, []⟩ (by omega)
    simpa using h

/-- C5 amended: a failed version-guarded commit in performAction is retried
at most 2 extra times (at most 3 commit attempts per request) before the
error surfaces, but the retry re-runs only the inner resolution loop on the
already-fetched in-memory battle: every performAction request fetches the
battle exactly once.  getBattle, by contrast, restarts its whole body and
makes at most 3 fetch attempts in total. -/
theorem C5_amended_retry_bounds :
    (∀ env suid input fuel, (performAction env suid input fuel).2.fetches = 1 ∧
      (performAction env suid input fuel).2.commits.length ≤ 3) ∧
    (∀ env uid battleId fuel, (getBattle env uid battleId fuel).2.fetches ≤ 3) :=
  ⟨fun env suid input fuel =>
    ⟨performAction_fetches env suid input fuel, performAction_commits_le env suid input fuel⟩,
   fun env uid battleId fuel => getBattle_fetches env uid battleId fuel⟩

theorem headPrefixEq {α : Type} {l l' : List α} (h : l <+: l') (hne : l ≠ []) :
    l'.head? = l.head? := by
  obtain ⟨t, rfl⟩ := h
  cases l with
  | nil => exact absurd rfl hne
  | cons a as => rfl

theorem commitPhase_commitsP (P : CommitRec → Prop)
    (hP : ∀ w e st n, P ⟨w, e, st, n, st == e⟩)
    (env : CombatEnv) (suid : String) (s : InnerState) (result : Option BattleResult)
    (hpre : ∀ c ∈ s.log.commits, P c) :
    (∀ r log, commitPhase env suid s result = .ret r log → ∀ c ∈ log.commits, P c) ∧
    (∀ s', commitPhase env suid s result = .cont s' → ∀ c ∈ s'.log.commits, P c) := by
  unfold commitPhase
  dsimp only
  repeat' split
  all_goals constructor
  all_goals first
    | (intro r log h
       first
         | (exfalso; exact StepOut.noConfusion h)
         | (rw [StepOut.ret.injEq] at h
            obtain ⟨hr, hlog⟩ := h
            subst hlog
            intro c hc
            simp only [setNewBattleVar_log, setNewBattleVar_nActions, List.mem_append,
              List.mem_singleton] at hc
            rcases hc with hc | hc
            · exact hpre c hc
            · subst hc; exact hP _ _ _ _))
    | (intro s' h
       first
         | (exfalso; exact StepOut.noConfusion h)
         | (rw [StepOut.cont.injEq] at h
            subst h
            intro c hc
            simp only [setNewBattleVar_log, setNewBattleVar_nActions, List.mem_append,
              List.mem_singleton] at hc
            rcases hc with hc | hc
            · exact hpre c hc
            · subst hc; exact hP _ _ _ _))

theorem afterAction_commitsP (P : CommitRec → Prop)
    (hP : ∀ w e st n, P ⟨w, e, st, n, st == e⟩)
    (env : CombatEnv) (suid : String) (originalRound : Nat)
    (originalActiveUserId : String) (s : InnerState) (actionRound : Nat) (actor : Actor)
    (actionEffects : List String) (battleDescriptions : List String)
    (hpre : ∀ c ∈ s.log.commits, P c) :
    (∀ r log, afterAction env suid originalRound originalActiveUserId s actionRound actor
        actionEffects battleDescriptions = .ret r log → ∀ c ∈ log.commits, P c) ∧
    (∀ s', afterAction env suid originalRound originalActiveUserId s actionRound actor
        actionEffects battleDescriptions = .cont s' → ∀ c ∈ s'.log.commits, P c) := by
  unfold afterAction
  dsimp only
  repeat' split
  all_goals first
    | (apply commitPhase_commitsP P hP <;> simp_all [setNewBattleVar_log])
    | (constructor
       · intro r log h
         first
           | (exfalso; exact StepOut.noConfusion h)
           | (rw [StepOut.ret.injEq] at h
              obtain ⟨hr, hlog⟩ := h
              subst hlog
              try simp only [setNewBattleVar_log]
              exact hpre)
       · intro s' h
         first
           | (exfalso; exact StepOut.noConfusion h)
           | (rw [StepOut.cont.injEq] at h
              subst h
              try dsimp only
              try simp only [setNewBattleVar_log]
              exact hpre))

theorem innerStep_commitsP (P : CommitRec → Prop)
    (hP : ∀ w e st n, P ⟨w, e, st, n, st == e⟩)
    (env : CombatEnv) (suid : String) (originalRound : Nat)
    (originalActiveUserId : String) (s : InnerState)
    (hpre : ∀ c ∈ s.log.commits, P c) :
    (∀ r log, innerStep env suid originalRound originalActiveUserId s = .ret r log →
      ∀ c ∈ log.commits, P c) ∧
    (∀ s', innerStep env suid originalRound originalActiveUserId s = .cont s' →
      ∀ c ∈ s'.log.commits, P c) := by
  unfold innerStep
  dsimp only
  repeat' split
  all_goals first
    | (apply afterAction_commitsP P hP <;> simp_all [setBattleVar_log])
    | (constructor
       · intro r log h
         first
           | (exfalso; exact StepOut.noConfusion h)
           | (rw [StepOut.ret.injEq] at h
              obtain ⟨hr, hlog⟩ := h
              subst hlog
              try dsimp only
              try simp only [setBattleVar_log]
              exact hpre)
       · intro s' h
         first
           | (exfalso; exact StepOut.noConfusion h)
           | (rw [StepOut.cont.injEq] at h
              subst h
              try dsimp only
              try simp only [setBattleVar_log]
              exact hpre))

theorem innerLoop_commitsP (P : CommitRec → Prop)
    (hP : ∀ w e st n, P ⟨w, e, st, n, st == e⟩)
    (env : CombatEnv) (suid : String) (originalRound : Nat)
    (originalActiveUserId : String) :
    ∀ fuel s, (∀ c ∈ s.log.commits, P c) →
      ∀ c ∈ (innerLoop env suid originalRound originalActiveUserId fuel s).2.commits, P c := by
  intro fuel
  induction fuel with
  | zero => intro s hpre; simpa [innerLoop] using hpre
  | succ n ih =>
    intro s hpre
    have h := innerStep_commitsP P hP env suid originalRound originalActiveUserId s hpre
    unfold innerLoop
    cases hstep : innerStep env suid originalRound originalActiveUserId s with
    | ret r log => exact h.1 r log hstep
    | cont s' => exact ih s' (h.2 s' hstep)

theorem performAction_commitsP (P : CommitRec → Prop)
    (hP : ∀ w e st n, P ⟨w, e, st, n, st == e⟩)
    (env : CombatEnv) (suid : String) (input : ActionInput) (fuel : Nat) :
    ∀ c ∈ (performAction env suid input fuel).2.commits, P c := by
  unfold performAction
  cases h : env.fetchBattle input.battleId with
  | none => simp
  | some b =>
    exact innerLoop_commitsP P hP env suid b.round b.activeUserId fuel _ (by simp)

/-- Modelled from the spec: the combat helpers do not touch the version
field — version bumps are performed by the router itself (getBattle line 62
increments explicitly after alignBattle, and performAction line 276 adds
nActions), so alignment and action resolution preserve battle.version. -/
def VersionFaithful (env : CombatEnv) : Prop :=
  (∀ b v, (env.alignBattle b v).battle.version = b.version) ∧
  (∀ b a u lo la out, env.performBattleAction b a u lo la = .ok out →
    out.newBattle.version = b.version) ∧
  (∀ b out, env.performAIaction b = .ok out → out.nextBattle.version = b.version)

/-- The first updateBattle call of the log wrote the expected (read)
version plus the nActions counter. -/
def GoodFirst (log : RunLog) : Prop :=
  ∀ c, log.commits.head? = some c → c.written = c.expected + c.nActions

/-- Loop invariant for the inner loop up to its first commit attempt: both
battle variables still carry the fetched version, no commit was attempted,
and while the two variables alias each other no action was recorded. -/
def InvV (fV : Nat) (s : InnerState) : Prop :=
  s.battle.version = fV ∧ s.newBattle.version = fV ∧ s.log.commits = [] ∧
    (s.aliased = true → (s.nActions = 0 ∧ s.actionPerformed = false))

theorem setNewBattleVar_battle_pos (s : InnerState) (b : Battle) (ha : s.aliased = true) :
    (setNewBattleVar s b).battle = b := by
  unfold setNewBattleVar; rw [if_pos ha]

theorem setNewBattleVar_battle_neg (s : InnerState) (b : Battle) (ha : s.aliased = false) :
    (setNewBattleVar s b).battle = s.battle := by
  unfold setNewBattleVar; rw [if_neg (by simp [ha])]

theorem setBattleVar_newBattle_pos (s : InnerState) (b : Battle) (ha : s.aliased = true) :
    (setBattleVar s b).newBattle = b := by
  unfold setBattleVar; rw [if_pos ha]

theorem setBattleVar_newBattle_neg (s : InnerState) (b : Battle) (ha : s.aliased = false) :
    (setBattleVar s b).newBattle = s.newBattle := by
  unfold setBattleVar; rw [if_neg (by simp [ha])]

theorem commitPhase_first (env : CombatEnv) (suid : String) (s : InnerState)
    (result : Option BattleResult) (fV : Nat)
    (hb : s.battle.version = fV) (hnb : s.newBattle.version = fV)
    (hcm : s.log.commits = []) (hal : s.aliased = true → s.nActions = 0) :
    (∀ r log, commitPhase env suid s result = .ret r log → GoodFirst log) ∧
    (∀ s', commitPhase env suid s result = .cont s' →
      s'.log.commits ≠ [] ∧ GoodFirst s'.log) := by
  unfold commitPhase
  dsimp only
  by_cases ha : s.aliased = true
  · have hn0 := hal ha
    simp only [setNewBattleVar_battle_pos _ _ ha, setNewBattleVar_log, setNewBattleVar_nActions,
      hcm, hn0, Nat.add_zero, List.nil_append]
    repeat' split
    all_goals constructor
    all_goals first
      | (intro r log h
         first
           | (exfalso; exact StepOut.noConfusion h)
           | (rw [StepOut.ret.injEq] at h
              obtain ⟨hr, hlog⟩ := h
              subst hlog
              intro c hc
              simp only [List.head?_cons, Option.some.injEq] at hc
              subst hc
              simp))
      | (intro s' h
         first
           | (exfalso; exact StepOut.noConfusion h)
           | (rw [StepOut.cont.injEq] at h
              subst h
              refine ⟨by simp, ?_⟩
              intro c hc
              simp only [List.head?_cons, Option.some.injEq] at hc
              subst hc
              simp))
  · have ha' : s.aliased = false := by simpa using ha
    simp only [setNewBattleVar_battle_neg _ _ ha', setNewBattleVar_log, setNewBattleVar_nActions,
      hcm, hb, hnb, List.nil_append]
    repeat' split
    all_goals constructor
    all_goals first
      | (intro r log h
         first
           | (exfalso; exact StepOut.noConfusion h)
           | (rw [StepOut.ret.injEq] at h
              obtain ⟨hr, hlog⟩ := h
              subst hlog
              intro c hc
              simp only [List.head?_cons, Option.some.injEq] at hc
              subst hc
              simp))
      | (intro s' h
         first
           | (exfalso; exact StepOut.noConfusion h)
           | (rw [StepOut.cont.injEq] at h
              subst h
              refine ⟨by simp, ?_⟩
              intro c hc
              simp only [List.head?_cons, Option.some.injEq] at hc
              subst hc
              simp))

theorem intercalate_nil : String.intercalate ". " [] = "" := rfl

theorem commitPhase_first2 (env : CombatEnv) (suid : String) (s : InnerState)
    (result : Option BattleResult) (fV : Nat)
    (hb : s.battle.version = fV) (hnb : s.newBattle.version = fV)
    (hcm : s.log.commits = []) (hal : s.aliased = true → s.nActions = 0) :
    (∀ r log, commitPhase env suid s result = .ret r log → GoodFirst log) ∧
    (∀ s', commitPhase env suid s result = .cont s' →
      InvV fV s' ∨ (s'.log.commits ≠ [] ∧ GoodFirst s'.log)) :=
  ⟨(commitPhase_first env suid s result fV hb hnb hcm hal).1,
   fun s' h => Or.inr ((commitPhase_first env suid s result fV hb hnb hcm hal).2 s' h)⟩

theorem afterAction_first (env : CombatEnv) (suid : String) (originalRound : Nat)
    (originalActiveUserId : String) (s : InnerState) (actionRound : Nat) (actor : Actor)
    (actionEffects : List String) (battleDescriptions : List String) (fV : Nat)
    (hAlign : ∀ b v, (env.alignBattle b v).battle.version = b.version)
    (hb : s.battle.version = fV) (hnb : s.newBattle.version = fV)
    (hcm : s.log.commits = [])
    (hal : s.aliased = true → (s.nActions = 0 ∧ s.actionPerformed = false))
    (hbd : s.aliased = true → battleDescriptions = []) :
    (∀ r log, afterAction env suid originalRound originalActiveUserId s actionRound actor
        actionEffects battleDescriptions = .ret r log → GoodFirst log) ∧
    (∀ s', afterAction env suid originalRound originalActiveUserId s actionRound actor
        actionEffects battleDescriptions = .cont s' →
      InvV fV s' ∨ (s'.log.commits ≠ [] ∧ GoodFirst s'.log)) := by
  by_cases ha : s.aliased = true
  · obtain ⟨hn0, hap⟩ := hal ha
    have hbd0 := hbd ha
    subst hbd0
    unfold afterAction
    dsimp only
    simp only [intercalate_nil, hap, setNewBattleVar_actionPerformed, beq_self_eq_true,
      Bool.true_and, Bool.and_false, Bool.false_and, Bool.false_eq_true, if_false,
      bne_self_eq_false]
    repeat' split
    all_goals first
      | (apply commitPhase_first2 _ _ _ _ fV <;>
          simp_all [setNewBattleVar_log, setNewBattleVar_battle_pos _ _ ha, hAlign])
      | (constructor
         · intro r log h
           first
             | (exfalso; exact StepOut.noConfusion h)
             | (rw [StepOut.ret.injEq] at h
                obtain ⟨hr, hlog⟩ := h
                subst hlog
                intro c hc
                simp only [setNewBattleVar_log, hcm, List.head?_nil] at hc
                exact Option.noConfusion hc)
         · intro s' h
           first
             | (exfalso; exact StepOut.noConfusion h)
             | (rw [StepOut.cont.injEq] at h
                subst h
                refine Or.inl ⟨?_, ?_, ?_, ?_⟩ <;>
                  simp_all [InvV, setNewBattleVar_log, setNewBattleVar_battle_pos _ _ ha,
                    hAlign]))
  · have ha' : s.aliased = false := by simpa using ha
    unfold afterAction
    dsimp only
    repeat' split
    all_goals first
      | (apply commitPhase_first2 _ _ _ _ fV <;>
          simp_all [setNewBattleVar_log, setNewBattleVar_battle_neg _ _ ha', hAlign])
      | (constructor
         · intro r log h
           first
             | (exfalso; exact StepOut.noConfusion h)
             | (rw [StepOut.ret.injEq] at h
                obtain ⟨hr, hlog⟩ := h
                subst hlog
                intro c hc
                simp only [setNewBattleVar_log, hcm, List.head?_nil] at hc
                exact Option.noConfusion hc)
         · intro s' h
           first
             | (exfalso; exact StepOut.noConfusion h)
             | (rw [StepOut.cont.injEq] at h
                subst h
                refine Or.inl ⟨?_, ?_, ?_, ?_⟩ <;>
                  simp_all [InvV, setNewBattleVar_log, setNewBattleVar_battle_neg _ _ ha',
                    hAlign]))

theorem innerStep_first (env : CombatEnv) (suid : String) (originalRound : Nat)
    (originalActiveUserId : String) (s : InnerState) (fV : Nat)
    (hVF : VersionFaithful env) (hInv : InvV fV s) :
    (∀ r log, innerStep env suid originalRound originalActiveUserId s = .ret r log →
      GoodFirst log) ∧
    (∀ s', innerStep env suid originalRound originalActiveUserId s = .cont s' →
      InvV fV s' ∨ (s'.log.commits ≠ [] ∧ GoodFirst s'.log)) := by
  obtain ⟨hb, hnb, hcm, hal⟩ := hInv
  unfold innerStep
  dsimp only
  split
  · refine ⟨?_, ?_⟩
    · intro r log h
      rw [StepOut.ret.injEq] at h
      obtain ⟨hr, hlog⟩ := h
      subst hlog
      intro c hc
      simp only [setBattleVar_log, hcm, List.head?_nil] at hc
      exact Option.noConfusion hc
    · intro s' h
      exact StepOut.noConfusion h
  · split
    · split
      · refine ⟨?_, ?_⟩
        · intro r log h
          rw [StepOut.ret.injEq] at h
          obtain ⟨hr, hlog⟩ := h
          subst hlog
          intro c hc
          simp only [setBattleVar_log, hcm, List.head?_nil] at hc
          exact Option.noConfusion hc
        · intro s' h
          exact StepOut.noConfusion h
      · rename_i action hfind
        split
        · refine ⟨?_, ?_⟩
          · intro r log h
            rw [StepOut.ret.injEq] at h
            obtain ⟨hr, hlog⟩ := h
            subst hlog
            intro c hc
            simp only [setBattleVar_log, hcm, List.head?_nil] at hc
            exact Option.noConfusion hc
          · intro s' h
            exact StepOut.noConfusion h
        · rename_i out heq
          apply afterAction_first _ _ _ _ _ _ _ _ _ fV hVF.1
          · simp only [setBattleVar_battle, hVF.1, hb]
          · rw [hVF.2.1 _ _ _ _ _ _ heq, setBattleVar_battle, hVF.1, hb]
          · simp only [setBattleVar_log, hcm]
          · intro hfalse
            simp at hfalse
          · intro hfalse
            simp at hfalse
    · split
      · split
        · refine ⟨?_, ?_⟩
          · intro r log h
            rw [StepOut.ret.injEq] at h
            obtain ⟨hr, hlog⟩ := h
            subst hlog
            intro c hc
            simp only [setBattleVar_log, hcm, List.head?_nil] at hc
            exact Option.noConfusion hc
          · intro s' h
            exact StepOut.noConfusion h
        · rename_i out heq
          apply afterAction_first _ _ _ _ _ _ _ _ _ fV hVF.1
          · simp only [setBattleVar_battle, hVF.1, hb]
          · rw [hVF.2.2 _ _ heq]
            unfold setBattleVar
            split <;> simp [hVF.1, hb, hnb]
          · simp only [setBattleVar_log, hcm]
          · intro hfalse
            simp at hfalse
          · intro hfalse
            simp at hfalse
      · apply afterAction_first _ _ _ _ _ _ _ _ _ fV hVF.1
        · simp only [setBattleVar_battle, hVF.1, hb]
        · unfold setBattleVar
          split <;> simp [hVF.1, hb, hnb]
        · simp only [setBattleVar_log, hcm]
        · simp only [setBattleVar_aliased, setBattleVar_nActions, setBattleVar_actionPerformed]
          exact hal
        · intro htriv
          rfl

theorem innerLoop_first (env : CombatEnv) (suid : String) (originalRound : Nat)
    (originalActiveUserId : String) (fV : Nat) (hVF : VersionFaithful env) :
    ∀ fuel s, InvV fV s →
      GoodFirst (innerLoop env suid originalRound originalActiveUserId fuel s).2 := by
  intro fuel
  induction fuel with
  | zero =>
    intro s hInv c hc
    simp only [innerLoop] at hc
    rw [hInv.2.2.1] at hc
    simp at hc
  | succ n ih =>
    intro s hInv
    have hstep := innerStep_first env suid originalRound originalActiveUserId s fV hVF hInv
    unfold innerLoop
    cases h : innerStep env suid originalRound originalActiveUserId s with
    | ret r log => exact hstep.1 r log h
    | cont s' =>
      rcases hstep.2 s' h with h2 | ⟨hne, hgf⟩
      · exact ih s' h2
      · have hext := innerLoop_logExt env suid originalRound originalActiveUserId n s'
        intro c hc
        rw [headPrefixEq hext.1 hne] at hc
        exact hgf c hc

theorem performAction_firstCommit (env : CombatEnv) (suid : String) (input : ActionInput)
    (fuel : Nat) (hVF : VersionFaithful env) :
    GoodFirst (performAction env suid input fuel).2 := by
  unfold performAction
  cases hf : env.fetchBattle input.battleId with
  | none => intro c hc; simp at hc
  | some b =>
    exact innerLoop_first env suid b.round b.activeUserId b.version hVF fuel _
      ⟨rfl, rfl, rfl, fun _ => ⟨rfl, rfl⟩⟩

theorem getBattleLoop_commits (env : CombatEnv) (uid : String) (battleId : String)
    (hAlign : ∀ b v, (env.alignBattle b v).battle.version = b.version) :
    ∀ fuel attempts log,
      (∀ c ∈ log.commits, c.written = c.expected + c.nActions ∧
        (c.ok = true ↔ c.stored = c.expected)) →
      ∀ c ∈ (getBattleLoop env uid battleId fuel attempts log).2.commits,
        c.written = c.expected + c.nActions ∧ (c.ok = true ↔ c.stored = c.expected) := by
  intro fuel
  induction fuel with
  | zero => intro attempts log hpre; simpa [getBattleLoop] using hpre
  | succ n ih =>
    intro attempts log hpre
    unfold getBattleLoop
    dsimp only
    cases hf : env.fetchBattle battleId with
    | none => simpa using hpre
    | some b =>
      dsimp only
      repeat' split
      all_goals first
        | simpa using hpre
        | (apply ih
           intro c hc
           rcases List.mem_append.mp hc with hc | hc
           · exact hpre c hc
           · simp only [List.mem_singleton] at hc
             subst hc
             exact ⟨by simp [hAlign], beq_iff_eq⟩)
        | (intro c hc
           rcases List.mem_append.mp hc with hc | hc
           · exact hpre c hc
           · simp only [List.mem_singleton] at hc
             subst hc
             exact ⟨by simp [hAlign], beq_iff_eq⟩)

/-- C1 amended: every updateBattle call is a compare-and-swap that succeeds
exactly when the stored version equals the expected (read) version; the
first commit of a performAction request writes the read version plus the
nActions counter — strictly greater than the read version precisely when at
least one action was recorded, and unchanged (newVersion = oldVersion) when
a round-progression-only commit happens with nActions = 0; every getBattle
commit writes the fetched version plus one exactly when the round
progressed.  The original claim's unconditional strict inequality fails
(see the counterexample); the arithmetic and rejection clauses hold. -/
theorem C1_amended_version_arithmetic :
    (∀ env suid input fuel,
      ∀ c ∈ (performAction env suid input fuel).2.commits,
        c.ok = true ↔ c.stored = c.expected) ∧
    (∀ env suid input fuel, VersionFaithful env →
      ∀ c, (performAction env suid input fuel).2.commits.head? = some c →
        c.written = c.expected + c.nActions ∧ (1 ≤ c.nActions → c.expected < c.written)) ∧
    (∀ env uid battleId fuel,
      (∀ b v, (env.alignBattle b v).battle.version = b.version) →
      ∀ c ∈ (getBattle env uid battleId fuel).2.commits,
        c.written = c.expected + c.nActions ∧ (c.ok = true ↔ c.stored = c.expected)) := by
  refine ⟨?_, ?_, ?_⟩
  · intro env suid input fuel
    exact performAction_commitsP (fun c => c.ok = true ↔ c.stored = c.expected)
      (fun w e st n => beq_iff_eq) env suid input fuel
  · intro env suid input fuel hVF c hc
    have h := performAction_firstCommit env suid input fuel hVF c hc
    exact ⟨h, fun hn => by omega⟩
  · intro env uid battleId fuel hAlign
    unfold getBattle
    cases battleId with
    | none => simp
    | some bid => exact getBattleLoop_commits env uid bid hAlign fuel 0 ⟨0, []⟩ (by simp)

/-- C1 amended witness: the round-progression-only commit of the cEnv1 run
(read version 7, zero recorded actions) satisfies the amended arithmetic:
it writes 7 = 7 + 0. -/
theorem C1_amended_witness :
    (⟨7, 7, 7, 0, true⟩ : CommitRec).written =
        (⟨7, 7, 7, 0, true⟩ : CommitRec).expected + (⟨7, 7, 7, 0, true⟩ : CommitRec).nActions ∧
      (1 ≤ (⟨7, 7, 7, 0, true⟩ : CommitRec).nActions →
        (⟨7, 7, 7, 0, true⟩ : CommitRec).expected < (⟨7, 7, 7, 0, true⟩ : CommitRec).written) :=
  C1_amended_version_arithmetic.2.1 cEnv1 "P" ⟨"b1", none, none, none⟩ 4
    ⟨fun b v => rfl, fun b a u lo la out h => Except.noConfusion h,
     fun b out h => Except.noConfusion h⟩ ⟨7, 7, 7, 0, true⟩ rfl

/-- No combatant is ever stunned in this environment, so the forced-skip
branch of the inner loop is never taken. -/
def NoStun (env : CombatEnv) : Prop := ∀ b u, env.calcIsStunned b u = false

/-- Some commit attempt in the log failed its compare-and-swap. -/
def BadLog (log : RunLog) : Prop := ∃ c ∈ log.commits, c.ok = false

theorem commitPhase_hist (env : CombatEnv) (suid : String) (s : InnerState)
    (result : Option BattleResult) (h5 : s.history.length ≤ 5) :
    (∀ r log, commitPhase env suid s result = .ret r log → histLen r ≤ 5) ∧
    (∀ s', commitPhase env suid s result = .cont s' → BadLog s'.log) := by
  unfold commitPhase
  dsimp only
  repeat' split
  all_goals constructor
  all_goals first
    | (intro r log h
       first
         | (exfalso; exact StepOut.noConfusion h)
         | (rw [StepOut.ret.injEq] at h
            obtain ⟨hr, hlog⟩ := h
            subst hr
            simp only [histLen, setNewBattleVar_history]
            omega)
         | (rw [StepOut.ret.injEq] at h
            obtain ⟨hr, hlog⟩ := h
            subst hr
            simp only [histLen]
            omega))
    | (intro s' h
       first
         | (exfalso; exact StepOut.noConfusion h)
         | (rw [StepOut.cont.injEq] at h
            subst h
            rename_i hok hng
            exact ⟨_, List.mem_append_right _ (List.mem_singleton.mpr rfl),
              by simpa using hok⟩))

theorem commitPhase_hist2 (env : CombatEnv) (suid : String) (s : InnerState)
    (result : Option BattleResult) (h5 : s.history.length ≤ 5) :
    (∀ r log, commitPhase env suid s result = .ret r log → histLen r ≤ 5) ∧
    (∀ s', commitPhase env suid s result = .cont s' →
      (s'.history.length = s'.nActions ∧ s'.nActions ≤ 4) ∨ BadLog s'.log) :=
  ⟨(commitPhase_hist env suid s result h5).1,
   fun s' h => Or.inr ((commitPhase_hist env suid s result h5).2 s' h)⟩

theorem afterAction_hist (env : CombatEnv) (suid : String) (originalRound : Nat)
    (originalActiveUserId : String) (s : InnerState) (actionRound : Nat) (actor : Actor)
    (actionEffects : List String) (battleDescriptions : List String)
    (hNS : ∀ b u, env.calcIsStunned b u = false)
    (h1 : s.history.length = s.nActions) (h2 : s.nActions ≤ 4) :
    (∀ r log, afterAction env suid originalRound originalActiveUserId s actionRound actor
        actionEffects battleDescriptions = .ret r log → histLen r ≤ 5) ∧
    (∀ s', afterAction env suid originalRound originalActiveUserId s actionRound actor
        actionEffects battleDescriptions = .cont s' →
      (s'.history.length = s'.nActions ∧ s'.nActions ≤ 4) ∨ BadLog s'.log) := by
  unfold afterAction
  dsimp only
  repeat' split
  all_goals first
    | (apply commitPhase_hist2
       try simp only [setNewBattleVar_history, setNewBattleVar_nActions, List.length_append,
         List.length_singleton]
       omega)
    | (constructor
       · intro r log h
         first
           | (exfalso; exact StepOut.noConfusion h)
           | (rw [StepOut.ret.injEq] at h
              obtain ⟨hr, hlog⟩ := h
              subst hr
              simp [histLen])
       · intro s' h
         first
           | (exfalso; exact StepOut.noConfusion h)
           | (rw [StepOut.cont.injEq] at h
              subst h
              first
                | (exfalso; simp_all [hNS]; done)
                | (left
                   constructor <;> (simp_all; try omega))))

theorem innerStep_hist (env : CombatEnv) (suid : String) (originalRound : Nat)
    (originalActiveUserId : String) (s : InnerState)
    (hNS : ∀ b u, env.calcIsStunned b u = false)
    (h1 : s.history.length = s.nActions) (h2 : s.nActions ≤ 4) :
    (∀ r log, innerStep env suid originalRound originalActiveUserId s = .ret r log →
      histLen r ≤ 5) ∧
    (∀ s', innerStep env suid originalRound originalActiveUserId s = .cont s' →
      (s'.history.length = s'.nActions ∧ s'.nActions ≤ 4) ∨ BadLog s'.log) := by
  unfold innerStep
  dsimp only
  repeat' split
  all_goals first
    | (apply afterAction_hist _ _ _ _ _ _ _ _ _ hNS <;>
        simp_all [setBattleVar_history, setBattleVar_nActions])
    | (constructor
       · intro r log h
         first
           | (exfalso; exact StepOut.noConfusion h)
           | (rw [StepOut.ret.injEq] at h
              obtain ⟨hr, hlog⟩ := h
              subst hr
              simp [histLen])
       · intro s' h
         exact absurd h (fun hh => StepOut.noConfusion hh))

theorem innerLoop_hist (env : CombatEnv) (suid : String) (originalRound : Nat)
    (originalActiveUserId : String) (hNS : ∀ b u, env.calcIsStunned b u = false) :
    ∀ fuel s, (s.history.length = s.nActions ∧ s.nActions ≤ 4) ∨ BadLog s.log →
      histLen (innerLoop env suid originalRound originalActiveUserId fuel s).1 ≤ 5 ∨
        BadLog (innerLoop env suid originalRound originalActiveUserId fuel s).2 := by
  intro fuel
  induction fuel with
  | zero => intro s hpre; left; simp [innerLoop, histLen]
  | succ n ih =>
    intro s hpre
    unfold innerLoop
    cases hstep : innerStep env suid originalRound originalActiveUserId s with
    | ret r log =>
      rcases hpre with ⟨hh1, hh2⟩ | hbad
      · exact Or.inl ((innerStep_hist env suid originalRound originalActiveUserId s
          hNS hh1 hh2).1 r log hstep)
      · right
        have hext := innerStep_logExt env suid originalRound originalActiveUserId s
        rw [hstep] at hext
        obtain ⟨c, hc, hcf⟩ := hbad
        exact ⟨c, hext.1.subset hc, hcf⟩
    | cont s' =>
      rcases hpre with ⟨hh1, hh2⟩ | hbad
      · exact ih s' ((innerStep_hist env suid originalRound originalActiveUserId s
          hNS hh1 hh2).2 s' hstep)
      · refine ih s' (Or.inr ?_)
        have hext := innerStep_logExt env suid originalRound originalActiveUserId s
        rw [hstep] at hext
        obtain ⟨c, hc, hcf⟩ := hbad
        exact ⟨c, hext.1.subset hc, hcf⟩

/-- C4: bounded AI chaining.  The inner loop chains a further action only
through the guard of part_003 lines 247-255 — the new actor is an AI
controlling itself, fewer than 5 actions are recorded (nActions < 5), the
battle is not over for the requester, and the actor changed or the last
action produced a description (all of this is the definition of
afterAction).  Consequently, in any request in which no stun forced-skip
fires and every commit succeeds, the history persisted by the reply holds
at most 5 recorded actions. -/
theorem C4_ai_chain_bound (env : CombatEnv) (suid : String) (input : ActionInput)
    (fuel : Nat) (hNS : NoStun env)
    (hOK : ∀ c ∈ (performAction env suid input fuel).2.commits, c.ok = true) :
    histLen (performAction env suid input fuel).1 ≤ 5 := by
  have key : histLen (performAction env suid input fuel).1 ≤ 5 ∨
      BadLog (performAction env suid input fuel).2 := by
    unfold performAction
    cases hf : env.fetchBattle input.battleId with
    | none => left; simp [histLen]
    | some b =>
      exact innerLoop_hist env suid b.round b.activeUserId hNS fuel _
        (Or.inl ⟨rfl, by simp⟩)
  rcases key with h | ⟨c, hc, hcf⟩
  · exact h
  · have hg := hOK c hc
    rw [hg] at hcf
    exact absurd hcf (by simp)

/-- C4 witness: the cEnv4 run (a single user attack with no stunned
combatants and a store matching the read version) records one action; the
theorem bounds its persisted history by 5. -/
theorem C4_witness :
    histLen (performAction cEnv4 "P" ⟨"b5", some "atk", some 5, some 2⟩ 6).1 ≤ 5 :=
  C4_ai_chain_bound cEnv4 "P" ⟨"b5", some "atk", some 5, some 2⟩ 6
    (fun b u => rfl) (by decide)

/-- C7: reward scaling.  For every non-arena initiation that reaches the
battle insert (two fetched rows with the attacker's row first after
sorting, target not immune, both awake), the inserted row's rewardScaling
is 1 when there are 0 prior battles between the pair in the trailing
60-minute window and 1/(n+1) when there are n > 0 such battles (part_003
lines 449-474). -/
theorem C7_reward_scaling (info : InitiateInfo) (battleType : BattleType)
    (background : String) (a b : UserRow) (previousBattles : Nat) (now : Int)
    (currentRows : List UserRow) (battleId : String)
    (hattacker : a.userId = info.userId)
    (himm : b.immunityUntil ≤ now) (hsa : a.status = "AWAKE") (hsb : b.status = "AWAKE")
    (harena : battleType ≠ .ARENA) :
    (battleInsert? (initiateBattle info battleType background [a, b] previousBattles
        now currentRows battleId).2).map BattleRow.rewardScaling =
      some (if 0 < previousBattles then 1 / ((previousBattles : ℚ) + 1) else 1) := by
  unfold initiateBattle sortAttackerFirst
  dsimp only
  rw [if_pos hattacker]
  dsimp only [List.get?]
  rw [if_neg (by simp; omega)]
  rw [if_neg (by simp [hsa])]
  rw [if_neg (by simp [hsb])]
  simp only [apply_ite Prod.snd, ite_self]
  rw [if_pos harena]
  by_cases hp : 0 < previousBattles
  · rw [if_pos (show battleType ≠ .ARENA ∧ previousBattles > 0 from ⟨harena, hp⟩)]
    simp [battleInsert?, hp]
  · rw [if_neg (show ¬(battleType ≠ .ARENA ∧ previousBattles > 0) from fun hc => hp hc.2)]
    simp [battleInsert?, hp]

/-- C7 witness: a COMBAT initiation with 3 prior encounters in the window
yields rewardScaling 1/4 in the inserted battle row (and the same theorem
instantiated at 0 prior encounters yields 1). -/
theorem C7_witness :
    (battleInsert? (initiateBattle ⟨some 5, some 5, 10, "A", "B"⟩ .COMBAT "forest.webp"
        [⟨"A", "AWAKE", 10, 5, 5, 0, some 99, false⟩, ⟨"B", "AWAKE", 10, 6, 5, 0, none, false⟩]
        3 0 [] "battle-1").2).map BattleRow.rewardScaling =
      some (if 0 < 3 then 1 / ((3 : ℚ) + 1) else 1) :=
  C7_reward_scaling ⟨some 5, some 5, 10, "A", "B"⟩ .COMBAT "forest.webp"
    ⟨"A", "AWAKE", 10, 5, 5, 0, some 99, false⟩ ⟨"B", "AWAKE", 10, 6, 5, 0, none, false⟩
    3 0 [] "battle-1" rfl (by decide) rfl rfl (by decide)

/-- C8: COMBAT initiation between two awake, non-immune, non-AI users whose
rows match the final UPDATE's location conditions inserts a Battle row with
exactly two combatant snapshots — the attacker at combat position (4,2) and
the target at (8,2), both controlled by themselves — marks both users
BATTLE with the battle id attached, and reports success (part_003 lines
419-433 and 653-687). -/
theorem C8_combat_initiation (info : InitiateInfo) (background : String)
    (a b : UserRow) (previousBattles : Nat) (now : Int) (battleId : String)
    (hattacker : a.userId = info.userId)
    (himm : b.immunityUntil ≤ now) (hsa : a.status = "AWAKE") (hsb : b.status = "AWAKE")
    (haAi : a.isAi = false) (hbAi : b.isAi = false)
    (hma : updateWhere info .COMBAT a = true) (hmb : updateWhere info .COMBAT b = true) :
    (initiateBattle info .COMBAT background [a, b] previousBattles now [a, b] battleId).1 =
      ⟨true, battleId⟩ ∧
    (battleInsert? (initiateBattle info .COMBAT background [a, b] previousBattles now
        [a, b] battleId).2).map BattleRow.usersState =
      some [⟨a.userId, a.userId, true, 4, 2⟩, ⟨b.userId, b.userId, true, 8, 2⟩] ∧
    userUpdates? (initiateBattle info .COMBAT background [a, b] previousBattles now
        [a, b] battleId).2 =
      some [⟨a.userId, "BATTLE", true⟩, ⟨b.userId, "BATTLE", true⟩] := by
  unfold initiateBattle sortAttackerFirst
  dsimp only
  rw [if_pos hattacker]
  dsimp only [List.get?]
  rw [if_neg (by simp; omega)]
  rw [if_neg (by simp [hsa])]
  rw [if_neg (by simp [hsb])]
  have haff : List.filter (updateWhere info .COMBAT) [a, b] = [a, b] := by
    simp [List.filter_cons, hma, hmb]
  simp [haff, battleInsert?, userUpdates?, toCombatant, haAi, hbAi]

/-- C8 witness: a concrete COMBAT initiation between awake users A and B at
matching positions succeeds, inserts the two snapshots at (4,2) and (8,2),
and sets both statuses to BATTLE. -/
theorem C8_witness :
    (initiateBattle ⟨some 5, some 5, 10, "A", "B"⟩ .COMBAT "forest.webp"
        [⟨"A", "AWAKE", 10, 5, 5, 0, some 99, false⟩, ⟨"B", "AWAKE", 10, 5, 5, 0, none, false⟩]
        0 0
        [⟨"A", "AWAKE", 10, 5, 5, 0, some 99, false⟩, ⟨"B", "AWAKE", 10, 5, 5, 0, none, false⟩]
        "battle-1").1 = ⟨true, "battle-1"⟩ ∧
    (battleInsert? (initiateBattle ⟨some 5, some 5, 10, "A", "B"⟩ .COMBAT "forest.webp"
        [⟨"A", "AWAKE", 10, 5, 5, 0, some 99, false⟩, ⟨"B", "AWAKE", 10, 5, 5, 0, none, false⟩]
        0 0
        [⟨"A", "AWAKE", 10, 5, 5, 0, some 99, false⟩, ⟨"B", "AWAKE", 10, 5, 5, 0, none, false⟩]
        "battle-1").2).map BattleRow.usersState =
      some [⟨"A", "A", true, 4, 2⟩, ⟨"B", "B", true, 8, 2⟩] ∧
    userUpdates? (initiateBattle ⟨some 5, some 5, 10, "A", "B"⟩ .COMBAT "forest.webp"
        [⟨"A", "AWAKE", 10, 5, 5, 0, some 99, false⟩, ⟨"B", "AWAKE", 10, 5, 5, 0, none, false⟩]
        0 0
        [⟨"A", "AWAKE", 10, 5, 5, 0, some 99, false⟩, ⟨"B", "AWAKE", 10, 5, 5, 0, none, false⟩]
        "battle-1").2 =
      some [⟨"A", "BATTLE", true⟩, ⟨"B", "BATTLE", true⟩] :=
  C8_combat_initiation ⟨some 5, some 5, 10, "A", "B"⟩ "forest.webp"
    ⟨"A", "AWAKE", 10, 5, 5, 0, some 99, false⟩ ⟨"B", "AWAKE", 10, 5, 5, 0, none, false⟩
    0 0 "battle-1" rfl (by decide) rfl rfl rfl rfl (by decide) (by decide)

/-- C10: opening turn.  Every initiation that reaches the battle insert
stores activeUserId equal to the attacker's id unless the defender's
current sector equals the defender's own village's sector, in which case
the defender's id is stored (part_003 lines 619-623); a defender without a
village never goes first. -/
theorem C10_active_user (info : InitiateInfo) (battleType : BattleType)
    (background : String) (a b : UserRow) (previousBattles : Nat) (now : Int)
    (currentRows : List UserRow) (battleId : String)
    (hattacker : a.userId = info.userId)
    (himm : b.immunityUntil ≤ now) (hsa : a.status = "AWAKE") (hsb : b.status = "AWAKE") :
    (battleInsert? (initiateBattle info battleType background [a, b] previousBattles
        now currentRows battleId).2).map BattleRow.activeUserId =
      some (if defenderGoesFirst b then b.userId else a.userId) := by
  unfold initiateBattle sortAttackerFirst
  dsimp only
  rw [if_pos hattacker]
  dsimp only [List.get?]
  rw [if_neg (by simp; omega)]
  rw [if_neg (by simp [hsa])]
  rw [if_neg (by simp [hsb])]
  simp only [apply_ite Prod.snd, ite_self]
  by_cases hd : defenderGoesFirst b = true
  · have hd2 : defenderGoesFirst { b with longitude := 8, latitude := 2 } = true := hd
    rw [if_pos hd2]
    by_cases ha2 : battleType = BattleType.ARENA
    · simp [battleInsert?, hd, ha2]
    · simp [battleInsert?, hd, ha2]
  · have hd2 : defenderGoesFirst { b with longitude := 8, latitude := 2 } = false := by
      simpa using hd
    rw [if_neg (show ¬(defenderGoesFirst
        { b with longitude := 8, latitude := 2 } = true) from by simp [hd2])]
    have hd3 : defenderGoesFirst b = false := by simpa using hd
    by_cases ha2 : battleType = BattleType.ARENA
    · simp [battleInsert?, hd3, ha2]
    · simp [battleInsert?, hd3, ha2]

/-- C10 witness: with the defender B sitting in their own village's sector
(sector 10, village sector 10) the inserted battle's activeUserId is B. -/
theorem C10_witness :
    (battleInsert? (initiateBattle ⟨some 5, some 5, 10, "A", "B"⟩ .COMBAT "forest.webp"
        [⟨"A", "AWAKE", 10, 5, 5, 0, some 99, false⟩, ⟨"B", "AWAKE", 10, 5, 5, 0, some 10, false⟩]
        0 0 [] "battle-1").2).map BattleRow.activeUserId =
      some (if defenderGoesFirst ⟨"B", "AWAKE", 10, 5, 5, 0, some 10, false⟩ then "B" else "A") :=
  C10_active_user ⟨some 5, some 5, 10, "A", "B"⟩ .COMBAT "forest.webp"
    ⟨"A", "AWAKE", 10, 5, 5, 0, some 99, false⟩ ⟨"B", "AWAKE", 10, 5, 5, 0, some 10, false⟩
    0 0 [] "battle-1" rfl (by decide) rfl rfl

/-- C9: the late "Attack failed, did the target move?" failure is returned
from inside the transaction callback after the battle and battle-history
inserts have executed; since the database client only rolls a transaction
back on a thrown exception — returning a value commits — those rows and the
single-row status update remain persisted.  Here the target B moved to
sector 11 between the fetch and the UPDATE: the status update matches only
A (rowsAffected = 1), the response is the structured failure, and the
persisted writes still contain the battle insert, the history insert, and
A's status flip to BATTLE — contradicting the claim that no rows remain. -/
theorem C9_partial_write_bug :
    (initiateBattle ⟨some 5, some 5, 10, "A", "B"⟩ .COMBAT "forest.webp"
        [⟨"A", "AWAKE", 10, 5, 5, 0, some 99, false⟩, ⟨"B", "AWAKE", 10, 6, 5, 0, none, false⟩]
        0 0
        [⟨"A", "AWAKE", 10, 5, 5, 0, some 99, false⟩, ⟨"B", "AWAKE", 11, 6, 5, 0, none, false⟩]
        "battle-1").1 = ⟨false, "Attack failed, did the target move?"⟩ ∧
    (initiateBattle ⟨some 5, some 5, 10, "A", "B"⟩ .COMBAT "forest.webp"
        [⟨"A", "AWAKE", 10, 5, 5, 0, some 99, false⟩, ⟨"B", "AWAKE", 10, 6, 5, 0, none, false⟩]
        0 0
        [⟨"A", "AWAKE", 10, 5, 5, 0, some 99, false⟩, ⟨"B", "AWAKE", 11, 6, 5, 0, none, false⟩]
        "battle-1").2 =
      [.insertBattle ⟨"battle-1", .COMBAT, "forest.webp",
          [⟨"A", "A", true, 4, 2⟩, ⟨"B", "B", true, 8, 2⟩], 1, "A"⟩,
       .insertHistory ⟨"battle-1", "A", "B"⟩,
       .updateUsers [⟨"A", "BATTLE", true⟩]] := by
  exact ⟨by decide, by decide⟩
